import Mathlib

/-!
# SecureX plate-recognition decision core: shallow embedding

This file embeds, in Lean, the decision/state-management core of the
SecureX number-plate recognition program (`src/main.py` together with the
constants of `src/config.py`):

* `SmartOCR.extract_text` — multi-variant, multi-configuration OCR result
  fusion (preprocessing variants Adaptive/Otsu/CLAHE, each fed to the OCR
  engine under PSM7 and PSM8; token filtering, text cleanup, average
  confidence; `max(results, key=lambda x: x[1])` selection).
* `SmartOCR.validate_plate` — length bounds plus Python
  `re.match('^[A-Z0-9]+$', text)` (where `$` also matches just before one
  trailing newline).
* `DuplicateManager.is_duplicate` — time-windowed deduplication queue.
* `PerformanceMonitor` — bounded deque of frame times and FPS.
* `DataManager.save_detection` / `DataManager.get_statistics` — dual-sink
  persistence and fail-soft daily statistics.
* the manual-save branch of `main` (keys `s`/space).

External collaborators (camera, cascade detector, the Tesseract engine,
the SQLite driver and the filesystem) are modelled as oracles: an
environment records, for each preprocessing variant and each OCR
configuration, whether the call raises and, if not, which token/confidence
table it returns; persistence failures are injected as booleans.
Exceptions in Python become `Option`/explicit failure flags here, so every
modelled operation is total — mirroring the fact that each Python
counterpart catches its exceptions.  Confidences and times are embedded as
rationals.
-/

namespace SecureX

/-! ## Configuration constants (`src/config.py`) -/

def MIN_PLATE_LENGTH : ℕ := 4
def MAX_PLATE_LENGTH : ℕ := 10
def DUPLICATE_TIME_WINDOW : ℚ := 5
def PERFORMANCE_BUFFER_SIZE : ℕ := 30

/-! ## OCR result fusion (`SmartOCR.extract_text`) -/

/-- The three preprocessing variants, in the order the `methods` list of
`extract_text` enumerates them. -/
inductive Variant : Type
  | Adaptive
  | Otsu
  | CLAHE
deriving DecidableEq

/-- The Python method-name label attached to each variant. -/
def Variant.name : Variant → String
  | .Adaptive => "Adaptive"
  | .Otsu => "Otsu"
  | .CLAHE => "CLAHE"

/-- The two OCR configurations, in the order the inner loop of
`extract_text` enumerates them (`OCR_CONFIG_PSM7`, then `OCR_CONFIG_PSM8`). -/
inductive Psm : Type
  | PSM7
  | PSM8
deriving DecidableEq

/-- The `methods` enumeration order of `extract_text`. -/
def variants : List Variant := [.Adaptive, .Otsu, .CLAHE]

/-- Inner configuration enumeration order of `extract_text`. -/
def psmConfigs : List Psm := [.PSM7, .PSM8]

/-- One winning OCR reading: the `(text, confidence, method)` triple. -/
structure Reading where
  text : String
  conf : ℚ
  method : String
deriving DecidableEq

/-- The token table returned by `pytesseract.image_to_data`: the parallel
arrays `data['text']` and `data['conf']`, zipped into word/confidence
pairs. -/
structure TessData where
  tokens : List (String × Int)
deriving DecidableEq

/-- Oracle for the external collaborators of one `extract_text` call on a
fixed region image: whether each preprocessing variant succeeds, and what
each `image_to_data` invocation returns (`none` = the call raises). -/
structure OcrEnv where
  preprocess : Variant → Bool
  imageToData : Variant → Psm → Option TessData

/-- Python `str.strip()` whitespace set (ASCII part). -/
def isPySpace (c : Char) : Bool :=
  c = ' ' || c = '\t' || c = '\n' || c = '\x0d' || c = '\x0b' || c = '\x0c'

/-- Python `str.strip()` on a character list. -/
def pyStrip (l : List Char) : List Char :=
  ((l.dropWhile isPySpace).reverse.dropWhile isPySpace).reverse

/-- The text cleanup of `extract_text`: concatenate the words whose
confidence is strictly positive, then `.strip().replace(" ", "").upper()`. -/
def cleanText (d : TessData) : String :=
  let kept := d.tokens.filter (fun t => 0 < t.2)
  let cat := (kept.map (fun t => t.1)).foldl (fun a b => a ++ b) ""
  ⟨((pyStrip cat.toList).filter (fun c => c ≠ ' ')).map Char.toUpper⟩

/-- The confidences collected alongside the text: `int(data['conf'][i])`
for each token with strictly positive confidence. -/
def keptConfs (d : TessData) : List Int :=
  (d.tokens.filter (fun t => 0 < t.2)).map (fun t => t.2)

/-- One `image_to_data` post-processing step of `extract_text`: build the
cleaned text, and append a reading iff the text is non-empty and at least
`MIN_PLATE_LENGTH` characters; its confidence is the token average scaled
to `[0,1]`. -/
def mkReading (v : Variant) (d : TessData) : Option Reading :=
  let text := cleanText d
  let confs := keptConfs d
  if text ≠ "" ∧ MIN_PLATE_LENGTH ≤ text.length then
    let avg : ℚ := if confs.isEmpty then 0 else ((confs.map (fun z => (z : ℚ))).sum) / confs.length
    some ⟨text, avg / 100, v.name⟩
  else
    none

/-- The inner configuration loop for one preprocessing variant.  The
Python `try` block encloses this whole loop, so the first raising
`image_to_data` call aborts the remaining configurations of the *same*
variant (readings appended earlier are kept, since they already went into
the outer `results` list). -/
def runConfigs (env : OcrEnv) (v : Variant) : List Psm → List Reading
  | [] => []
  | c :: cs =>
    match env.imageToData v c with
    | none => []
    | some d => (mkReading v d).toList ++ runConfigs env v cs

/-- One iteration of the outer `methods` loop: a raising preprocessing
call contributes nothing; otherwise run the configuration loop. -/
def runMethod (env : OcrEnv) (v : Variant) : List Reading :=
  if env.preprocess v then runConfigs env v psmConfigs else []

/-- The full `results` list accumulated by `extract_text`, in enumeration
order. -/
def collectResults (env : OcrEnv) : List Reading :=
  (variants.map (runMethod env)).flatten

/-- Python `max(results, key=lambda x: x[1])`: scan left to right, replace
the current best only on a strictly larger key — the first maximum wins. -/
def pyMax : Reading → List Reading → Reading
  | b, [] => b
  | b, x :: xs => pyMax (if b.conf < x.conf then x else b) xs

/-- The sentinel `("", 0, "None")` returned when no reading was gathered. -/
def sentinel : Reading := ⟨"", 0, "None"⟩

/-- Embedding of `SmartOCR.extract_text`, as a function of the collaborator oracle. -/
def extract_text (env : OcrEnv) : Reading :=
  match collectResults env with
  | [] => sentinel
  | r :: rs => pyMax r rs

/-! ## Plate validation (`SmartOCR.validate_plate`) -/

/-- Membership in the regex character class `[A-Z0-9]`. -/
def isUpperAlnum (c : Char) : Bool :=
  ('A' ≤ c && c ≤ 'Z') || ('0' ≤ c && c ≤ '9')

/-- Truth value of Python `re.match(r'^[A-Z0-9]+$', s)`: one or more
class characters, where `$` matches at the end of the string *or just
before a single trailing newline*. -/
def reMatchUpperAlnumLine (l : List Char) : Bool :=
  (!l.isEmpty && l.all isUpperAlnum) ||
    (l.getLast? == some '\n' && !l.dropLast.isEmpty && l.dropLast.all isUpperAlnum)

/-- Embedding of `SmartOCR.validate_plate`. -/
def validate_plate (text : String) : Bool :=
  if text.length < MIN_PLATE_LENGTH || MAX_PLATE_LENGTH < text.length then
    false
  else
    reMatchUpperAlnumLine text.toList

/-! ## Duplicate manager (`DuplicateManager.is_duplicate`)

The deque `self.detected` is a list of `(plate_text, timestamp)` pairs,
oldest first.  The window `config.DUPLICATE_TIME_WINDOW` is a parameter
`w` here. -/

/-- The eviction loop: pop from the front while the front entry is older
than the window (`current_time - t > w`). -/
def evictOld (w now : ℚ) (st : List (String × ℚ)) : List (String × ℚ) :=
  st.dropWhile (fun e => w < now - e.2)

/-- Embedding of `DuplicateManager.is_duplicate`, returning the result and the updated
deque: evict old entries, scan for an exact text match (returning `true`
without re-recording), else append `(text, now)` and return `false`. -/
def is_duplicate (w : ℚ) (st : List (String × ℚ)) (text : String) (now : ℚ) :
    Bool × List (String × ℚ) :=
  let st' := evictOld w now st
  if st'.any (fun e => e.1 == text) then
    (true, st')
  else
    (false, st' ++ [(text, now)])

/-! ## Performance monitor (`PerformanceMonitor`) -/

/-- Embedding of `add_frame_time` on a `deque(maxlen=cap)` holding `ts`: append `d`,
dropping from the front whatever exceeds the capacity. -/
def add_frame_time (cap : ℕ) (ts : List ℚ) (d : ℚ) : List ℚ :=
  (ts ++ [d]).drop (ts.length + 1 - cap)

/-- Recording a whole sequence of frame durations, starting from the
empty deque. -/
def recordAll (cap : ℕ) (ds : List ℚ) : List ℚ :=
  ds.foldl (add_frame_time cap) []

/-- Embedding of `PerformanceMonitor.get_fps`: `0` with no samples, else the
reciprocal of the mean frame time. -/
def get_fps (ts : List ℚ) : ℚ :=
  if ts.isEmpty then 0 else 1 / (ts.sum / ts.length)

/-! ## Data manager (`DataManager`) -/

/-- One row of the `plates` table (the seven-field `plate_data` tuple;
the auto-assigned `id` is left implicit as the list position). -/
structure PlateRecord where
  timestamp : String
  plate_number : String
  confidence : ℚ
  image_path : String
  location : String
  processing_time : ℚ
  detection_method : String
deriving DecidableEq

/-- The two persistence sinks: the SQLite `plates` table and the CSV
export file (`csvExists` models `os.path.exists(config.CSV_FILE)`, i.e.
whether the header has been written). -/
structure Store where
  db : List PlateRecord
  csv : List PlateRecord
  csvExists : Bool
deriving DecidableEq

/-- Embedding of `DataManager.save_detection`.  The external failure modes are
injected as flags: `dbOk` = the connect/insert/commit sequence succeeds,
`csvOk` = the CSV append succeeds.  The whole body sits in one
`try/except` returning `False`, so a database failure leaves both sinks
untouched, while a CSV failure happens *after* the committed insert and
leaves the new database row in place. -/
def save_detection (dbOk csvOk : Bool) (st : Store) (r : PlateRecord) :
    Bool × Store :=
  if !dbOk then
    (false, st)
  else
    let st1 : Store := { st with db := st.db ++ [r] }
    if !csvOk then
      (false, st1)
    else
      (true, { st1 with csv := st1.csv ++ [r], csvExists := true })

/-- SQLite `DATE(timestamp)` on a `'YYYY-MM-DD HH:MM:SS'` string: the
date prefix. -/
def dateOf (ts : String) : String :=
  ⟨ts.toList.take 10⟩

/-- Embedding of `DataManager.get_statistics`: today's row count, distinct plate
count and average confidence over rows whose `DATE(timestamp)` equals
today; `(0, 0, 0)` when the query raises (`ok = false`).  SQLite `AVG`
over zero rows is `NULL`, turned into `0` by the `or 0`. -/
def get_statistics (ok : Bool) (db : List PlateRecord) (today : String) :
    ℕ × ℕ × ℚ :=
  if !ok then
    (0, 0, 0)
  else
    let m := db.filter (fun r => dateOf r.timestamp == today)
    (m.length,
     ((m.map (fun r => r.plate_number)).dedup).length,
     if m.isEmpty then 0 else (m.map (fun r => r.confidence)).sum / m.length)

/-! ## Manual-save branch of `main` (keys `s`/space, lines 430–451)

With at least one candidate region, `main` re-runs fusion on the first
region and persists with origin `"Manual"` when the fused text is
non-empty and not a duplicate.  `ts` and `path` stand for the timestamp
string and saved-image path produced at that moment. -/

/-- The manual-save decision: returns the record handed to
`save_detection` (if any) and the updated duplicate deque.  Python's
short-circuit `and` means `is_duplicate` is not called on empty text. -/
def manual_save (w : ℚ) (fused : Reading) (dup : List (String × ℚ))
    (now : ℚ) (ts path : String) : Option PlateRecord × List (String × ℚ) :=
  if fused.text = "" then
    (none, dup)
  else
    match is_duplicate w dup fused.text now with
    | (true, dup') => (none, dup')
    | (false, dup') =>
      (some ⟨ts, fused.text, fused.conf, path, "Manual", 0, fused.method⟩, dup')

/-! ## Theorems -/

/-- C6 counterexample: the claimed characterisation of `validate_plate`
fails on `"AB12\n"`.  Python's `$` matches just before a trailing
newline, so `re.match(r'^[A-Z0-9]+$', "AB12\n")` succeeds and
`validate_plate` accepts a string containing a character that is neither
an uppercase letter nor a digit. -/
theorem validate_plate_trailing_newline_counterexample :
    ¬ (validate_plate "AB12\n" = true ↔
        (MIN_PLATE_LENGTH ≤ ("AB12\n" : String).length ∧
          ("AB12\n" : String).length ≤ MAX_PLATE_LENGTH ∧
          ∀ c ∈ ("AB12\n" : String).toList, isUpperAlnum c = true)) := by
  decide

/-- C6 (amended): `validate_plate T` is true iff the length of `T` lies
within `[MIN_PLATE_LENGTH, MAX_PLATE_LENGTH]` and either every character
of `T` is an uppercase ASCII letter or digit, or `T` is a non-empty run
of uppercase letters/digits followed by one trailing newline (the
newline still counting toward the length). -/
theorem validate_plate_characterisation (s : String) :
    validate_plate s = true ↔
      MIN_PLATE_LENGTH ≤ s.length ∧ s.length ≤ MAX_PLATE_LENGTH ∧
        ((∀ c ∈ s.toList, isUpperAlnum c = true) ∨
          ∃ w : List Char, s.toList = w ++ ['\n'] ∧ w ≠ [] ∧
            ∀ c ∈ w, isUpperAlnum c = true) := by
  have hlen : s.length = s.toList.length := rfl
  unfold validate_plate
  by_cases hout : s.length < MIN_PLATE_LENGTH || MAX_PLATE_LENGTH < s.length
  · rw [if_pos hout]
    simp only [Bool.or_eq_true, decide_eq_true_eq] at hout
    constructor
    · intro hfalse; exact absurd hfalse (by simp)
    · rintro ⟨h1, h2, -⟩; omega
  · rw [if_neg hout]
    simp only [Bool.or_eq_true, decide_eq_true_eq, not_or, not_lt] at hout
    obtain ⟨h1, h2⟩ := hout
    have hne : s.toList ≠ [] := by
      intro hnil
      rw [hlen, hnil] at h1
      simp [MIN_PLATE_LENGTH] at h1
    refine ⟨fun h => ⟨h1, h2, ?_⟩, fun h => ?_⟩
    · unfold reMatchUpperAlnumLine at h
      rcases Bool.or_eq_true_iff.mp h with h | h
      · left
        have := (Bool.and_eq_true _ _).mp h
        simpa [List.all_eq_true] using this.2
      · right
        obtain ⟨h3, h4⟩ := (Bool.and_eq_true _ _).mp h
        obtain ⟨h3, h5⟩ := (Bool.and_eq_true _ _).mp h3
        refine ⟨s.toList.dropLast, ?_, ?_, ?_⟩
        · have hlast : s.toList.getLast? = some '\n' := by
            simpa using h3
          conv_lhs => rw [← List.dropLast_append_getLast hne]
          rw [List.getLast_eq_iff_getLast?_eq_some hne |>.mpr hlast]
        · intro hnil; rw [hnil] at h5; simp at h5
        · simpa [List.all_eq_true] using h4
    · obtain ⟨-, -, h⟩ := h
      unfold reMatchUpperAlnumLine
      rcases h with h | ⟨w, hw, hwne, hall⟩
      · apply Bool.or_eq_true_iff.mpr; left
        rw [Bool.and_eq_true]
        exact ⟨by simpa using hne, by simpa [List.all_eq_true] using h⟩
      · apply Bool.or_eq_true_iff.mpr; right
        rw [hw]
        rw [Bool.and_eq_true, Bool.and_eq_true]
        refine ⟨⟨by simp, ?_⟩, ?_⟩
        · simpa using hwne
        · simpa [List.all_eq_true] using hall

/-- On a deque whose timestamps are nondecreasing (the invariant the
front-eviction loop relies on), evicting from the front removes exactly
the entries strictly older than the window. -/
lemma evictOld_eq_filter (w now : ℚ) (st : List (String × ℚ))
    (hst : st.Pairwise (fun a b => a.2 ≤ b.2)) :
    evictOld w now st = st.filter (fun e => decide (now - e.2 ≤ w)) := by
  induction st with
  | nil => rfl
  | cons e rest ih =>
    rw [List.pairwise_cons] at hst
    obtain ⟨hrel, hrest⟩ := hst
    by_cases hp : w < now - e.2
    · have : ¬ (now - e.2 ≤ w) := not_le.mpr hp
      simp only [evictOld, List.dropWhile, List.filter]
      rw [decide_eq_true hp, decide_eq_false this]
      exact ih hrest
    · have hkeep : now - e.2 ≤ w := not_lt.mp hp
      have hall : ∀ x ∈ rest, now - x.2 ≤ w := by
        intro x hx
        have := hrel x hx
        linarith
      simp only [evictOld, List.dropWhile, List.filter]
      rw [decide_eq_false hp, decide_eq_true hkeep]
      rw [List.filter_eq_self.mpr]
      intro x hx
      exact decide_eq_true (hall x hx)

/-- C3: `is_duplicate` first evicts (on a time-ordered deque, exactly
the entries older than the window), then — if an entry for the queried
text survived — returns `true` leaving the surviving entries, and their
timestamps, untouched; otherwise it appends `(text, now)` and returns
`false`.  Concretely, with a 5-second window, a plate recorded at `t=0`
queried at `t=4` answers `true` with the original timestamp `0` kept,
and queried at `t=6` answers `false` and is re-recorded at `t=6`. -/
theorem is_duplicate_spec :
    (∀ w now : ℚ, ∀ st : List (String × ℚ),
        st.Pairwise (fun a b => a.2 ≤ b.2) →
        evictOld w now st = st.filter (fun e => decide (now - e.2 ≤ w))) ∧
    (∀ w now : ℚ, ∀ text : String, ∀ st : List (String × ℚ),
        (∃ e ∈ evictOld w now st, e.1 = text) →
        is_duplicate w st text now = (true, evictOld w now st)) ∧
    (∀ w now : ℚ, ∀ text : String, ∀ st : List (String × ℚ),
        (∀ e ∈ evictOld w now st, e.1 ≠ text) →
        is_duplicate w st text now = (false, evictOld w now st ++ [(text, now)])) ∧
    is_duplicate 5 [("XYZ123", 0)] "XYZ123" 4 = (true, [("XYZ123", 0)]) ∧
    is_duplicate 5 [("XYZ123", 0)] "XYZ123" 6 = (false, [("XYZ123", 6)]) := by
  refine ⟨evictOld_eq_filter, ?_, ?_,
    by norm_num [is_duplicate, evictOld, List.dropWhile],
    by norm_num [is_duplicate, evictOld, List.dropWhile]⟩
  · intro w now text st h
    have hany : (evictOld w now st).any (fun e => e.1 == text) = true := by
      rw [List.any_eq_true]
      obtain ⟨e, he, heq⟩ := h
      exact ⟨e, he, beq_iff_eq.mpr heq⟩
    simp [is_duplicate, hany]
  · intro w now text st h
    have hany : (evictOld w now st).any (fun e => e.1 == text) = false := by
      rw [List.any_eq_false]
      intro e he
      simpa using h e he
    simp [is_duplicate, hany]

/-- Witness for `is_duplicate_spec`: its duplicate branch applied to the
concrete one-entry deque of the claim's scenario. -/
theorem is_duplicate_spec_witness :
    (∃ e ∈ evictOld 5 4 [("XYZ123", (0 : ℚ))], e.1 = "XYZ123") ∧
    is_duplicate 5 [("XYZ123", 0)] "XYZ123" 4 = (true, evictOld 5 4 [("XYZ123", 0)]) :=
  have hev : evictOld 5 4 [("XYZ123", (0 : ℚ))] = [("XYZ123", 0)] := by
    norm_num [evictOld, List.dropWhile]
  have hmem : (∃ e ∈ evictOld 5 4 [("XYZ123", (0 : ℚ))], e.1 = "XYZ123") :=
    ⟨("XYZ123", 0), by rw [hev]; exact ⟨List.mem_singleton.mpr rfl, rfl⟩⟩
  ⟨hmem, is_duplicate_spec.2.1 5 4 "XYZ123" [("XYZ123", 0)] hmem⟩

/-- A whole session of `is_duplicate` calls, threading the deque. -/
def runCalls (w : ℚ) : List (String × ℚ) → List (String × ℚ) → List (String × ℚ)
  | st, [] => st
  | st, c :: rest => runCalls w (is_duplicate w st c.1 c.2).2 rest

/-- One `is_duplicate` call preserves distinctness of the recorded
texts: eviction only removes entries, and a text is appended only when
no surviving entry matches it. -/
lemma is_duplicate_nodup (w now : ℚ) (text : String) (st : List (String × ℚ))
    (h : (st.map (fun e => e.1)).Nodup) :
    (((is_duplicate w st text now).2).map (fun e => e.1)).Nodup := by
  have hsub : (evictOld w now st).Sublist st := List.dropWhile_sublist _
  have hev : ((evictOld w now st).map (fun e => e.1)).Nodup :=
    (hsub.map (fun e => e.1)).nodup h
  unfold is_duplicate
  by_cases hany : (evictOld w now st).any (fun e => e.1 == text) = true
  · simpa [hany] using hev
  · rw [Bool.not_eq_true] at hany
    have hnot : text ∉ (evictOld w now st).map (fun e => e.1) := by
      rw [List.any_eq_false] at hany
      intro hmem
      obtain ⟨e, he, heq⟩ := List.mem_map.mp hmem
      exact absurd (beq_iff_eq.mpr heq) (by simpa using hany e he)
    simp only [hany, Bool.false_eq_true, if_false, List.map_append, List.map_cons,
      List.map_nil]
    exact List.Nodup.append hev (List.nodup_singleton text)
      (List.disjoint_singleton.mpr hnot)

/-- C10: starting from the empty deque, after any sequence of
`is_duplicate` calls at nondecreasing times, the duplicate deque never
holds two entries with the same plate text. -/
theorem runCalls_texts_nodup (w : ℚ) (calls : List (String × ℚ))
    (_hmono : (calls.map (fun c => c.2)).Chain' (· ≤ ·)) :
    ((runCalls w [] calls).map (fun e => e.1)).Nodup := by
  suffices h : ∀ (cs st : List (String × ℚ)), (st.map (fun e => e.1)).Nodup →
      ((runCalls w st cs).map (fun e => e.1)).Nodup from
    h calls [] (by simp)
  intro cs
  induction cs with
  | nil => intro st h; simpa [runCalls] using h
  | cons c rest ih =>
    intro st h
    exact ih _ (is_duplicate_nodup w c.2 c.1 st h)

/-- Witness for `runCalls_texts_nodup`: a concrete three-call session
(a repeat inside the window plus a fresh plate). -/
theorem runCalls_texts_nodup_witness :
    (([("AB12", (0 : ℚ)), ("AB12", 1), ("CD34", 2)].map (fun c => c.2)).Chain' (· ≤ ·)) ∧
    ((runCalls 5 [] [("AB12", (0 : ℚ)), ("AB12", 1), ("CD34", 2)]).map (fun e => e.1)).Nodup :=
  ⟨by norm_num, runCalls_texts_nodup 5 [("AB12", 0), ("AB12", 1), ("CD34", 2)] (by norm_num)⟩

/-- Folding `add_frame_time` keeps exactly the last `cap` samples, as
long as the starting deque already respects the capacity. -/
lemma foldl_add_frame_time (cap : ℕ) :
    ∀ (ds st : List ℚ), st.length ≤ cap →
      ds.foldl (add_frame_time cap) st = (st ++ ds).drop ((st ++ ds).length - cap)
  | [], st => by
    intro h
    simp only [List.foldl_nil, List.append_nil]
    rw [Nat.sub_eq_zero_of_le h, List.drop_zero]
  | d :: ds, st => by
    intro h
    have hlen : (add_frame_time cap st d).length = min (st.length + 1) cap := by
      simp only [add_frame_time, List.length_drop, List.length_append,
        List.length_singleton]
      omega
    have hle : (add_frame_time cap st d).length ≤ cap := by omega
    rw [List.foldl_cons, foldl_add_frame_time cap ds _ hle]
    have hk : st.length + 1 - cap ≤ (st ++ [d]).length := by
      simp only [List.length_append, List.length_singleton]; omega
    have hsplit : (add_frame_time cap st d) ++ ds
        = ((st ++ [d]) ++ ds).drop (st.length + 1 - cap) := by
      unfold add_frame_time
      conv_rhs => rw [List.drop_append_eq_append_drop]
      rw [Nat.sub_eq_zero_of_le hk, List.drop_zero]
    rw [hsplit, List.drop_drop]
    congr 1
    · simp only [List.length_drop, List.length_append, List.length_singleton,
        List.length_cons, List.length_nil]
      omega
    · simp

/-- C9: the performance tracker retains exactly the last `cap` recorded
durations (so the oldest is evicted once the capacity is reached and at
most `cap` samples are ever kept); `get_fps` is `0` on an empty sample
set and the reciprocal of the mean — that is, `count / sum` — otherwise;
with capacity 3, recording `0.1, 0.1, 0.1, 0.2` evicts the first sample
and yields FPS `1 / mean(0.1, 0.1, 0.2) = 7.5`. -/
theorem performance_monitor_spec :
    (∀ cap : ℕ, ∀ ds : List ℚ, recordAll cap ds = ds.drop (ds.length - cap)) ∧
    (∀ cap : ℕ, ∀ ds : List ℚ, (recordAll cap ds).length = min ds.length cap) ∧
    get_fps [] = 0 ∧
    (∀ ts : List ℚ, ts ≠ [] → get_fps ts = (ts.length : ℚ) / ts.sum) ∧
    (recordAll 3 [1/10, 1/10, 1/10, 2/10] = [1/10, 1/10, 1/5] ∧
      get_fps (recordAll 3 [1/10, 1/10, 1/10, 2/10]) = 15/2) := by
  have hrec : ∀ cap : ℕ, ∀ ds : List ℚ, recordAll cap ds = ds.drop (ds.length - cap) := by
    intro cap ds
    have := foldl_add_frame_time cap ds [] (by simp)
    simpa [recordAll] using this
  refine ⟨hrec, ?_, rfl, ?_, ?_, ?_⟩
  · intro cap ds
    rw [hrec]
    simp only [List.length_drop]
    omega
  · intro ts hne
    have : ts.isEmpty = false := by simpa [List.isEmpty_iff] using hne
    rw [get_fps, this]
    simp only [Bool.false_eq_true, if_false]
    rw [one_div_div]
  · rw [hrec]; norm_num
  · rw [hrec]; norm_num [get_fps, List.sum_cons]

/-- Witness for `performance_monitor_spec`: its mean-reciprocal clause
at a one-sample deque. -/
theorem performance_monitor_spec_witness :
    (([(2 : ℚ)] : List ℚ) ≠ []) ∧ get_fps [(2 : ℚ)] = (([(2 : ℚ)].length : ℚ) / [(2 : ℚ)].sum) :=
  ⟨by simp, performance_monitor_spec.2.2.2.1 [(2 : ℚ)] (by simp)⟩

/-- C7: when the database insert succeeds and the CSV append then
fails, `save_detection` reports overall failure, yet the committed
database row is retained (the CSV sink is untouched) and a subsequent
daily-statistics query on the record's day counts it.  The model is a
total function, mirroring the `try/except` that converts every failure
into the boolean return value. -/
theorem save_detection_partial_failure (st : Store) (r : PlateRecord) :
    (save_detection true false st r).1 = false ∧
    (save_detection true false st r).2.db = st.db ++ [r] ∧
    (save_detection true false st r).2.csv = st.csv ∧
    (get_statistics true (save_detection true false st r).2.db (dateOf r.timestamp)).1 =
      (get_statistics true st.db (dateOf r.timestamp)).1 + 1 := by
  refine ⟨rfl, rfl, rfl, ?_⟩
  simp [save_detection, get_statistics, List.filter_append]

/-- C8: `get_statistics` is fail-soft — any query failure yields
`(0, 0, 0)` — and otherwise depends only on the rows whose
`DATE(timestamp)` equals today: appending a row dated any other day
(yesterday, say) changes nothing, and the middle component counts the
distinct plate numbers among today's rows. -/
theorem get_statistics_spec :
    (∀ (db : List PlateRecord) (today : String),
        get_statistics false db today = (0, 0, 0)) ∧
    (∀ (db : List PlateRecord) (today : String),
        get_statistics true db today =
          get_statistics true (db.filter (fun r => dateOf r.timestamp == today)) today) ∧
    (∀ (db : List PlateRecord) (today : String) (r : PlateRecord),
        dateOf r.timestamp ≠ today →
        get_statistics true (db ++ [r]) today = get_statistics true db today) ∧
    (∀ (db : List PlateRecord) (today : String),
        (get_statistics true db today).2.1 =
          ((db.filter (fun r => dateOf r.timestamp == today)).map
            (fun r => r.plate_number)).toFinset.card) := by
  refine ⟨fun db today => rfl, ?_, ?_, ?_⟩
  · intro db today
    simp [get_statistics, List.filter_filter]
  · intro db today r hr
    have : (dateOf r.timestamp == today) = false := beq_eq_false_iff_ne.mpr hr
    simp [get_statistics, List.filter_append, this]
  · intro db today
    simp [get_statistics, List.card_toFinset]

/-- Witness for `get_statistics_spec`: a yesterday-dated row appended to
a one-row store does not change today's statistics. -/
theorem get_statistics_spec_witness :
    (dateOf "2024-01-01 09:00:00" ≠ "2024-01-02") ∧
    get_statistics true
        ([⟨"2024-01-02 10:00:00", "AB12", 1/2, "p", "Auto", 0, "Otsu"⟩] ++
          [⟨"2024-01-01 09:00:00", "CD34", 1, "p", "Auto", 0, "Otsu"⟩]) "2024-01-02" =
      get_statistics true
        [⟨"2024-01-02 10:00:00", "AB12", 1/2, "p", "Auto", 0, "Otsu"⟩] "2024-01-02" :=
  ⟨by decide, get_statistics_spec.2.2.1
    [⟨"2024-01-02 10:00:00", "AB12", 1/2, "p", "Auto", 0, "Otsu"⟩] "2024-01-02"
    ⟨"2024-01-01 09:00:00", "CD34", 1, "p", "Auto", 0, "Otsu"⟩ (by decide)⟩

/-- A token table whose cleaned text is empty or too short yields no
reading. -/
lemma mkReading_eq_none (v : Variant) (d : TessData)
    (hd : cleanText d = "" ∨ (cleanText d).length < MIN_PLATE_LENGTH) :
    mkReading v d = none := by
  unfold mkReading
  rw [if_neg]
  rintro ⟨h1, h2⟩
  rcases hd with h | h
  · exact h1 h
  · omega

/-- If every successful `image_to_data` call of one variant produces
empty or too-short text, the variant's configuration loop gathers
nothing. -/
lemma runConfigs_eq_nil (env : OcrEnv) (v : Variant)
    (h : ∀ (c : Psm) (d : TessData), env.imageToData v c = some d →
        cleanText d = "" ∨ (cleanText d).length < MIN_PLATE_LENGTH) :
    ∀ cs : List Psm, runConfigs env v cs = []
  | [] => rfl
  | c :: cs => by
    cases hc : env.imageToData v c with
    | none => simp [runConfigs, hc]
    | some d =>
      simp [runConfigs, hc, mkReading_eq_none v d (h c d hc),
        runConfigs_eq_nil env v h cs]

/-- C5: if every (variant, configuration) combination either raises
(preprocessing failure, or `image_to_data` returning nothing) or yields
text that is empty or shorter than `MIN_PLATE_LENGTH`, `extract_text`
returns exactly the sentinel `("", 0, "None")`.  The embedding is a
total function: the per-variant `try/except` means no exception
escapes. -/
theorem extract_text_sentinel (env : OcrEnv)
    (h : ∀ (v : Variant) (c : Psm) (d : TessData), env.imageToData v c = some d →
        cleanText d = "" ∨ (cleanText d).length < MIN_PLATE_LENGTH) :
    extract_text env = sentinel := by
  have hm : ∀ v : Variant, runMethod env v = [] := by
    intro v
    unfold runMethod
    cases hp : env.preprocess v
    · rfl
    · simpa using runConfigs_eq_nil env v (h v) psmConfigs
  have hres : collectResults env = [] := by
    simp [collectResults, variants, hm]
  unfold extract_text
  rw [hres]

/-- The all-failing environment: every `image_to_data` call raises. -/
def envAllRaise : OcrEnv where
  preprocess := fun _ => true
  imageToData := fun _ _ => none

/-- Witness for `extract_text_sentinel`: the environment in which every
OCR call raises indeed produces the sentinel. -/
theorem extract_text_sentinel_witness :
    (∀ (v : Variant) (c : Psm) (d : TessData), envAllRaise.imageToData v c = some d →
        cleanText d = "" ∨ (cleanText d).length < MIN_PLATE_LENGTH) ∧
    extract_text envAllRaise = sentinel :=
  have h : ∀ (v : Variant) (c : Psm) (d : TessData), envAllRaise.imageToData v c = some d →
      cleanText d = "" ∨ (cleanText d).length < MIN_PLATE_LENGTH :=
    fun _ _ _ hd => Option.noConfusion hd
  ⟨h, extract_text_sentinel envAllRaise h⟩

/-- Lemma: `pyMax` returns an element of the scanned list that carries the
maximal confidence, and every element enumerated strictly before it has
strictly smaller confidence — Python's `max` keeps the first maximum. -/
lemma pyMax_first_max : ∀ (l : List Reading) (b : Reading),
    ∃ l₁ l₂, b :: l = l₁ ++ pyMax b l :: l₂ ∧
      (∀ r ∈ b :: l, r.conf ≤ (pyMax b l).conf) ∧
      (∀ r ∈ l₁, r.conf < (pyMax b l).conf)
  | [], b => ⟨[], [], rfl, by simp [pyMax], by simp⟩
  | x :: xs, b => by
    have hrec : pyMax b (x :: xs) = pyMax (if b.conf < x.conf then x else b) xs := rfl
    obtain ⟨l₁, l₂, hsplit, hmax, hlt⟩ := pyMax_first_max xs (if b.conf < x.conf then x else b)
    by_cases hbx : b.conf < x.conf
    · rw [if_pos hbx] at hsplit hmax hlt
      rw [hrec, if_pos hbx]
      have hxle : x.conf ≤ (pyMax x xs).conf := hmax x (List.mem_cons_self x xs)
      refine ⟨b :: l₁, l₂, by rw [List.cons_append, ← hsplit], ?_, ?_⟩
      · intro r hr
        rcases List.mem_cons.mp hr with hb | hr
        · rw [hb]; exact le_of_lt (lt_of_lt_of_le hbx hxle)
        · exact hmax r hr
      · intro r hr
        rcases List.mem_cons.mp hr with hb | hr
        · rw [hb]; exact lt_of_lt_of_le hbx hxle
        · exact hlt r hr
    · rw [if_neg hbx] at hsplit hmax hlt
      rw [hrec, if_neg hbx]
      have hxb : x.conf ≤ b.conf := not_lt.mp hbx
      cases l₁ with
      | nil =>
        rw [List.nil_append] at hsplit
        have hw : pyMax b xs = b := (List.cons.injEq _ _ _ _ |>.mp hsplit.symm).1
        refine ⟨[], x :: xs, by rw [List.nil_append, hw], ?_, by simp⟩
        intro r hr
        rcases List.mem_cons.mp hr with hb | hr
        · rw [hb]; exact hmax b (List.mem_cons_self b xs)
        · rcases List.mem_cons.mp hr with hx | hr
          · rw [hx, hw]; exact hxb
          · exact hmax r (List.mem_cons_of_mem b hr)
      | cons b₁ t =>
        rw [List.cons_append] at hsplit
        have hb₁ : b = b₁ := (List.cons.injEq _ _ _ _ |>.mp hsplit).1
        have hxs : xs = t ++ pyMax b xs :: l₂ := (List.cons.injEq _ _ _ _ |>.mp hsplit).2
        have hblt : b.conf < (pyMax b xs).conf :=
          hlt b (by rw [hb₁]; exact List.mem_cons_self b₁ t)
        refine ⟨b :: x :: t, l₂, ?_, ?_, ?_⟩
        · rw [List.cons_append, List.cons_append, ← hxs]
        · intro r hr
          rcases List.mem_cons.mp hr with hb | hr
          · rw [hb]; exact le_of_lt hblt
          · rcases List.mem_cons.mp hr with hx | hr
            · rw [hx]; exact le_of_lt (lt_of_le_of_lt hxb hblt)
            · exact hmax r (List.mem_cons_of_mem b hr)
        · intro r hr
          rcases List.mem_cons.mp hr with hb | hr
          · rw [hb]; exact hblt
          · rcases List.mem_cons.mp hr with hx | hr
            · rw [hx]; exact lt_of_le_of_lt hxb hblt
            · exact hlt r (List.mem_cons_of_mem b₁ hr)

/-- C1: whenever fusion gathered at least one reading, `extract_text`
returns a reading of the gathered list whose confidence is maximal, and
every reading enumerated earlier (in the fixed variant × configuration
order of `collectResults`) has strictly smaller confidence — so equal
maxima are resolved to the earliest-enumerated reading.  Being a
function of the oracle, the selection is deterministic in the gathered
list. -/
theorem extract_text_first_max (env : OcrEnv) (h : collectResults env ≠ []) :
    ∃ l₁ l₂, collectResults env = l₁ ++ extract_text env :: l₂ ∧
      (∀ r ∈ collectResults env, r.conf ≤ (extract_text env).conf) ∧
      (∀ r ∈ l₁, r.conf < (extract_text env).conf) := by
  cases hres : collectResults env with
  | nil => exact absurd hres h
  | cons b rs =>
    have hext : extract_text env = pyMax b rs := by
      unfold extract_text
      rw [hres]
    rw [hext]
    exact pyMax_first_max rs b

/-- A concrete environment in which two variants each produce one
reading. -/
def envFuse : OcrEnv where
  preprocess := fun _ => true
  imageToData := fun v c =>
    match v, c with
    | .Adaptive, .PSM7 => some ⟨[("ABCD", 70)]⟩
    | .Otsu, .PSM7 => some ⟨[("EFGH", 90)]⟩
    | _, _ => none

/-- Witness for `extract_text_first_max`: a two-reading environment. -/
theorem extract_text_first_max_witness :
    collectResults envFuse ≠ [] ∧
    (∃ l₁ l₂, collectResults envFuse = l₁ ++ extract_text envFuse :: l₂ ∧
      (∀ r ∈ collectResults envFuse, r.conf ≤ (extract_text envFuse).conf) ∧
      (∀ r ∈ l₁, r.conf < (extract_text envFuse).conf)) :=
  have h : collectResults envFuse ≠ [] := by
    have he : collectResults envFuse
        = [⟨"ABCD", 7/10, "Adaptive"⟩, ⟨"EFGH", 9/10, "Otsu"⟩] := by
      norm_num +decide [collectResults, variants, runMethod, runConfigs, psmConfigs,
        envFuse, mkReading, cleanText, keptConfs, pyStrip, isPySpace, MIN_PLATE_LENGTH,
        Variant.name, List.dropWhile, String.length]
    rw [he]
    simp
  ⟨h, extract_text_first_max envFuse h⟩

/-- The environment of the C2 counterexample: for the Adaptive variant
the first OCR configuration (PSM7) raises while the second (PSM8) would
return a perfectly usable token table; every other call raises. -/
def envPsm7Raises : OcrEnv where
  preprocess := fun _ => true
  imageToData := fun v c =>
    match v, c with
    | .Adaptive, .PSM7 => none
    | .Adaptive, .PSM8 => some ⟨[("ABCD", 80)]⟩
    | _, _ => none

/-- C2 counterexample: an error in the first OCR configuration of a
variant *does* prevent that variant's other configurations from
contributing.  The Python `try` wraps the whole per-variant block, so
the PSM7 exception skips Adaptive's PSM8 invocation: its reading
`("ABCD", 0.8, "Adaptive")` is absent and fusion yields the sentinel. -/
theorem extract_text_config_abort_counterexample :
    envPsm7Raises.imageToData .Adaptive .PSM7 = none ∧
    envPsm7Raises.imageToData .Adaptive .PSM8 = some ⟨[("ABCD", 80)]⟩ ∧
    mkReading .Adaptive ⟨[("ABCD", 80)]⟩ = some ⟨"ABCD", 4/5, "Adaptive"⟩ ∧
    collectResults envPsm7Raises = [] ∧
    extract_text envPsm7Raises = sentinel := by
  have hres : collectResults envPsm7Raises = [] := by
    norm_num [collectResults, variants, runMethod, runConfigs, psmConfigs, envPsm7Raises]
  refine ⟨rfl, rfl, ?_, hres, ?_⟩
  · norm_num +decide [mkReading, cleanText, keptConfs, pyStrip, isPySpace,
      MIN_PLATE_LENGTH, Variant.name, List.dropWhile, String.length]
  · unfold extract_text
    rw [hres]

/-- C2 (amended): an error in one (variant, configuration) combination
aborts only the rest of *that variant's* configuration loop — a failing
first configuration empties the variant's contribution, and a failing
second configuration keeps the first configuration's reading — while the
readings of every other variant are unaffected (they depend only on that
other variant's own oracle answers), and fusion itself never aborts:
the gathered list is always exactly the per-variant contributions in
enumeration order. -/
theorem extract_text_error_isolation :
    (∀ (env : OcrEnv) (v : Variant), env.preprocess v = true →
        env.imageToData v .PSM7 = none → runMethod env v = []) ∧
    (∀ (env : OcrEnv) (v : Variant) (d : TessData), env.preprocess v = true →
        env.imageToData v .PSM7 = some d → env.imageToData v .PSM8 = none →
        runMethod env v = (mkReading v d).toList) ∧
    (∀ (env₁ env₂ : OcrEnv) (v u : Variant), u ≠ v →
        env₁.preprocess u = env₂.preprocess u →
        (∀ c : Psm, env₁.imageToData u c = env₂.imageToData u c) →
        runMethod env₁ u = runMethod env₂ u) ∧
    (∀ (env : OcrEnv) (r : Reading),
        r ∈ collectResults env ↔ ∃ v ∈ variants, r ∈ runMethod env v) := by
  refine ⟨?_, ?_, ?_, ?_⟩
  · intro env v hp h7
    simp [runMethod, hp, psmConfigs, runConfigs, h7]
  · intro env v d hp h7 h8
    simp [runMethod, hp, psmConfigs, runConfigs, h7, h8]
  · intro env₁ env₂ v u _ hp hi
    unfold runMethod
    rw [hp]
    cases env₂.preprocess u
    · rfl
    · simp only [if_true, psmConfigs]
      simp only [runConfigs]
      rw [hi .PSM7, hi .PSM8]
  · intro env r
    simp [collectResults, List.mem_flatten]

/-- Witness for `extract_text_error_isolation`: its first clause applied
to the concrete environment whose Adaptive PSM7 call raises. -/
theorem extract_text_error_isolation_witness :
    envPsm7Raises.preprocess .Adaptive = true ∧
    envPsm7Raises.imageToData .Adaptive .PSM7 = none ∧
    runMethod envPsm7Raises .Adaptive = [] :=
  ⟨rfl, rfl, extract_text_error_isolation.1 envPsm7Raises .Adaptive rfl rfl⟩

/-- The environment of the C4 counterexample: OCR reads an 11-character
uppercase alphanumeric text with confidence 90. -/
def envLongPlate : OcrEnv where
  preprocess := fun _ => true
  imageToData := fun v c =>
    match v, c with
    | .Adaptive, .PSM7 => some ⟨[("ABCDEFGHIJK", 90)]⟩
    | _, _ => none

/-- C4 counterexample: the manual-save branch checks only `plate_text`
truthiness and the duplicate tracker — it never calls `validate_plate` —
so a fused text of 11 characters (longer than `MAX_PLATE_LENGTH`), which
fails validation, is nevertheless persisted with origin `"Manual"`. -/
theorem manual_save_skips_validation_counterexample :
    extract_text envLongPlate = ⟨"ABCDEFGHIJK", 9/10, "Adaptive"⟩ ∧
    validate_plate (extract_text envLongPlate).text = false ∧
    (manual_save DUPLICATE_TIME_WINDOW (extract_text envLongPlate) [] 0
        "2024-01-02 10:00:00" "img.jpg").1 =
      some ⟨"2024-01-02 10:00:00", "ABCDEFGHIJK", 9/10, "img.jpg", "Manual", 0,
        "Adaptive"⟩ := by
  have hext : extract_text envLongPlate = ⟨"ABCDEFGHIJK", 9/10, "Adaptive"⟩ := by
    have h : collectResults envLongPlate = [⟨"ABCDEFGHIJK", 9/10, "Adaptive"⟩] := by
      norm_num +decide [collectResults, variants, runMethod, runConfigs, psmConfigs,
        envLongPlate, mkReading, cleanText, keptConfs, pyStrip, isPySpace,
        MIN_PLATE_LENGTH, Variant.name, List.dropWhile, String.length]
    unfold extract_text
    rw [h]
    rfl
  refine ⟨hext, ?_, ?_⟩
  · rw [hext]; decide
  · rw [hext]
    norm_num +decide [manual_save, is_duplicate, evictOld, List.dropWhile,
      DUPLICATE_TIME_WINDOW]

/-- C4 (amended): the manual-save branch persists exactly when the fused
text is non-empty and the duplicate tracker does not report it; plate
validation is not consulted on this path, and every record it persists
carries origin `"Manual"` and the fused text, confidence and method. -/
theorem manual_save_spec :
    (∀ (w : ℚ) (fused : Reading) (dup : List (String × ℚ)) (now : ℚ) (ts path : String),
        ((manual_save w fused dup now ts path).1 ≠ none ↔
          fused.text ≠ "" ∧ (is_duplicate w dup fused.text now).1 = false)) ∧
    (∀ (w : ℚ) (fused : Reading) (dup : List (String × ℚ)) (now : ℚ) (ts path : String)
        (r : PlateRecord),
        (manual_save w fused dup now ts path).1 = some r →
        r.location = "Manual" ∧ r.plate_number = fused.text ∧
          r.confidence = fused.conf ∧ r.detection_method = fused.method ∧
          r.timestamp = ts ∧ r.image_path = path) := by
  constructor
  · intro w fused dup now ts path
    unfold manual_save
    by_cases ht : fused.text = ""
    · simp [ht]
    · rw [if_neg ht]
      cases hd : is_duplicate w dup fused.text now with
      | mk b dup' =>
        cases b
        · simp [ht]
        · simp [ht]
  · intro w fused dup now ts path r h
    unfold manual_save at h
    by_cases ht : fused.text = ""
    · rw [if_pos ht] at h
      exact absurd h (by simp)
    · rw [if_neg ht] at h
      cases hd : is_duplicate w dup fused.text now with
      | mk b dup' =>
        rw [hd] at h
        cases b
        · simp only [Option.some.injEq] at h
          rw [← h]
          exact ⟨rfl, rfl, rfl, rfl, rfl, rfl⟩
        · exact absurd h (by simp)

/-- Witness for `manual_save_spec`: its persisted-record clause at a
concrete non-duplicate fused reading. -/
theorem manual_save_spec_witness :
    (manual_save 5 ⟨"ABCD", 1/2, "Otsu"⟩ [] 0 "t0" "p0").1 =
      some ⟨"t0", "ABCD", 1/2, "p0", "Manual", 0, "Otsu"⟩ ∧
    ((⟨"t0", "ABCD", 1/2, "p0", "Manual", 0, "Otsu"⟩ : PlateRecord).location = "Manual" ∧
      (⟨"t0", "ABCD", 1/2, "p0", "Manual", 0, "Otsu"⟩ : PlateRecord).plate_number =
        (⟨"ABCD", 1/2, "Otsu"⟩ : Reading).text ∧
      (⟨"t0", "ABCD", 1/2, "p0", "Manual", 0, "Otsu"⟩ : PlateRecord).confidence =
        (⟨"ABCD", 1/2, "Otsu"⟩ : Reading).conf ∧
      (⟨"t0", "ABCD", 1/2, "p0", "Manual", 0, "Otsu"⟩ : PlateRecord).detection_method =
        (⟨"ABCD", 1/2, "Otsu"⟩ : Reading).method ∧
      (⟨"t0", "ABCD", 1/2, "p0", "Manual", 0, "Otsu"⟩ : PlateRecord).timestamp = "t0" ∧
      (⟨"t0", "ABCD", 1/2, "p0", "Manual", 0, "Otsu"⟩ : PlateRecord).image_path = "p0") :=
  have h : (manual_save 5 ⟨"ABCD", 1/2, "Otsu"⟩ [] 0 "t0" "p0").1 =
      some ⟨"t0", "ABCD", 1/2, "p0", "Manual", 0, "Otsu"⟩ := by
    norm_num +decide [manual_save, is_duplicate, evictOld, List.dropWhile]
  ⟨h, manual_save_spec.2 5 ⟨"ABCD", 1/2, "Otsu"⟩ [] 0 "t0" "p0" _ h⟩

/-- Witness for `validate_plate_characterisation`: evaluated at the
well-formed plate text `"AB12"`. -/
theorem validate_plate_characterisation_witness :
    validate_plate "AB12" = true ↔
      MIN_PLATE_LENGTH ≤ ("AB12" : String).length ∧
        ("AB12" : String).length ≤ MAX_PLATE_LENGTH ∧
        ((∀ c ∈ ("AB12" : String).toList, isUpperAlnum c = true) ∨
          ∃ w : List Char, ("AB12" : String).toList = w ++ ['\n'] ∧ w ≠ [] ∧
            ∀ c ∈ w, isUpperAlnum c = true) :=
  validate_plate_characterisation "AB12"

/-- Witness for `save_detection_partial_failure`: evaluated at the empty
store and a concrete record. -/
theorem save_detection_partial_failure_witness :
    (save_detection true false ⟨[], [], false⟩
        ⟨"2024-01-02 10:00:00", "AB12", 1/2, "p", "Manual", 0, "Otsu"⟩).1 = false ∧
    (save_detection true false ⟨[], [], false⟩
        ⟨"2024-01-02 10:00:00", "AB12", 1/2, "p", "Manual", 0, "Otsu"⟩).2.db =
      ([] : List PlateRecord) ++ [⟨"2024-01-02 10:00:00", "AB12", 1/2, "p", "Manual", 0, "Otsu"⟩] ∧
    (save_detection true false ⟨[], [], false⟩
        ⟨"2024-01-02 10:00:00", "AB12", 1/2, "p", "Manual", 0, "Otsu"⟩).2.csv =
      ([] : List PlateRecord) ∧
    (get_statistics true
        (save_detection true false ⟨[], [], false⟩
          ⟨"2024-01-02 10:00:00", "AB12", 1/2, "p", "Manual", 0, "Otsu"⟩).2.db
        (dateOf ("2024-01-02 10:00:00" : String))).1 =
      (get_statistics true ([] : List PlateRecord)
        (dateOf ("2024-01-02 10:00:00" : String))).1 + 1 :=
  save_detection_partial_failure ⟨[], [], false⟩
    ⟨"2024-01-02 10:00:00", "AB12", 1/2, "p", "Manual", 0, "Otsu"⟩

end SecureX
